import Mathlib

/-!
# Verification of the inflationary core of `source/primordial.c`

This file is a shallow embedding, over the real numbers, of the primordial
power-spectrum module of the CLASS cosmology code (file `source/primordial.c`),
together with theorems settling a list of specification claims about it.

Modelling conventions:
* C `double` arithmetic is modelled by exact real arithmetic (`ℝ`); `sqrt`,
  `log`, `exp` and `pi` are the Mathlib real functions.  The definitions are
  therefore `noncomputable`, exactly as the floating-point source is not
  exact-executable; all concrete evaluations in the proofs are symbolic.
* The external adaptive ODE integrator (`generic_integrator`), which the
  specification explicitly treats as a black-box collaborator, is modelled as
  an oracle parameter: a function taking the start time, the end time and the
  state vector and returning the advanced state vector.
* The state vector `y[0..10]` with the index bookkeeping of
  `primordial_inflation_indices` is modelled as structures with one named
  field per index (`a, phi, dphi` for the background slots, plus the eight
  perturbation slots for the full vector).
* `while` loops of the C source are modelled by fuel-indexed recursion; a
  distinguished `outOfFuel` error stands for the cut-off of a loop that the
  source would keep running.  All claim theorems are about runs that do not
  hit the cut-off.
* The C error channel (`class_test` / `class_call`) is modelled by
  `Except ErrKind`.
-/

noncomputable section

open Real

/-- The fatal-error channel of the module: every `class_test` failure used by
the embedded routines gets one constructor.  `outOfFuel` is the fuel cut-off
artifact of the loop embedding (see the file header). -/
inductive ErrKind where
  | kNonPositive
  | outOfRange
  | potentialNonPositive
  | slopeNonNegative
  | inflationDisrupted
  | noAttractor
  | negativeCurvature
  | negativeTensor
  | outOfFuel
  deriving DecidableEq, Repr

/-- Configuration of the polynomial inflaton potential: coefficients
`V0..V4` and the pivot field value (the fields `potential == polynomial`
case of the `primordial` structure). -/
structure PotParams where
  V0 : ℝ
  V1 : ℝ
  V2 : ℝ
  V3 : ℝ
  V4 : ℝ
  phi_pivot : ℝ

/-- The numerical-control parameters of the `precision` structure used by the
embedded routines. -/
structure Precision where
  bg_stepsize : ℝ
  pt_stepsize : ℝ
  ratio_max : ℝ
  tol_curvature : ℝ

/-- Background state vector: the first three slots `y[index_in_a]`,
`y[index_in_phi]`, `y[index_in_dphi]` of the integration vector. -/
@[ext]
structure BgY where
  a : ℝ
  phi : ℝ
  dphi : ℝ

/-- Full state vector for mode integration: the background slots plus the
eight perturbation slots (`ksi` and `ah` as real/imaginary pairs with their
derivatives), in the order fixed by `primordial_inflation_indices`. -/
@[ext]
structure InflY where
  a : ℝ
  phi : ℝ
  dphi : ℝ
  ksi_re : ℝ
  ksi_im : ℝ
  dksi_re : ℝ
  dksi_im : ℝ
  ah_re : ℝ
  ah_im : ℝ
  dah_re : ℝ
  dah_im : ℝ

/-- The black-box generic integrator for background-only stretches:
given `tau_start`, `tau_end` and the state, returns the advanced state. -/
def BgOracle : Type := ℝ → ℝ → BgY → BgY

/-- The black-box generic integrator for full (background + perturbation)
stretches. -/
def InflOracle : Type := ℝ → ℝ → InflY → InflY

/-- `primordial_inflation_potential` (polynomial case): returns
`(V, dV/dphi, d2V/dphi2)` from the degree-4 Taylor expansion about the
pivot field value. -/
def primordial_inflation_potential (p : PotParams) (phi : ℝ) : ℝ × ℝ × ℝ :=
  (p.V0 + (phi - p.phi_pivot) * p.V1 + (phi - p.phi_pivot) ^ 2 / 2 * p.V2
      + (phi - p.phi_pivot) ^ 3 / 6 * p.V3 + (phi - p.phi_pivot) ^ 4 / 24 * p.V4,
   p.V1 + (phi - p.phi_pivot) * p.V2 + (phi - p.phi_pivot) ^ 2 / 2 * p.V3
      + (phi - p.phi_pivot) ^ 3 / 6 * p.V4,
   p.V2 + (phi - p.phi_pivot) * p.V3 + (phi - p.phi_pivot) ^ 2 / 2 * p.V4)

/-- `primordial_inflation_check_potential`: fatal error when `V <= 0`
(first test) or `dV >= 0` (second test) at the given field value. -/
def primordial_inflation_check_potential (p : PotParams) (phi : ℝ) :
    Except ErrKind Unit :=
  let V := (primordial_inflation_potential p phi).1
  let dV := (primordial_inflation_potential p phi).2.1
  if V ≤ 0 then .error .potentialNonPositive
  else if 0 ≤ dV then .error .slopeNonNegative
  else .ok ()

/-- `primordial_inflation_get_epsilon`: the slow-roll parameter
`epsilon = (1/16/pi) * (dV/V)^2` with the potential evaluated at the
argument the caller passes. -/
def primordial_inflation_get_epsilon (p : PotParams) (phi : ℝ) : ℝ :=
  let V := (primordial_inflation_potential p phi).1
  let dV := (primordial_inflation_potential p phi).2.1
  1 / 16 / Real.pi * (dV / V) ^ 2

/-- Background part of `primordial_inflation_derivs`: the derivative vector
`(da/dtau, dphi/dtau, d(dphi)/dtau)` with
`aH = sqrt((8 pi/3)(dphi^2/2 + a^2 V))`. -/
def primordial_inflation_derivs_bg (p : PotParams) (y : BgY) : BgY :=
  let V := (primordial_inflation_potential p y.phi).1
  let dV := (primordial_inflation_potential p y.phi).2.1
  let a2V := y.a * y.a * V
  let a2dV := y.a * y.a * dV
  let aH := Real.sqrt (8 * Real.pi / 3 * (0.5 * y.dphi * y.dphi + a2V))
  ⟨y.a * aH, y.dphi, -2 * aH * y.dphi - a2dV⟩

/-- Full `primordial_inflation_derivs`: background part plus the scalar
(`ksi`) and tensor (`ah`) oscillator equations with effective masses
`z''/z` and `a''/a`. -/
def primordial_inflation_derivs (p : PotParams) (k : ℝ) (y : InflY) : InflY :=
  let V := (primordial_inflation_potential p y.phi).1
  let dV := (primordial_inflation_potential p y.phi).2.1
  let ddV := (primordial_inflation_potential p y.phi).2.2
  let a2V := y.a * y.a * V
  let a2dV := y.a * y.a * dV
  let aH := Real.sqrt (8 * Real.pi / 3 * (0.5 * y.dphi * y.dphi + a2V))
  let a2ddV := y.a * y.a * ddV
  let zpp_over_z := 2 * aH * aH - a2ddV
      - 4 * Real.pi * (7 * y.dphi * y.dphi + 4 * y.dphi / aH * a2dV)
      + 32 * Real.pi * Real.pi * y.dphi ^ 4 / aH ^ 2
  let app_over_a := 2 * aH * aH - 4 * Real.pi * y.dphi * y.dphi
  { a := y.a * aH
    phi := y.dphi
    dphi := -2 * aH * y.dphi - a2dV
    ksi_re := y.dksi_re
    ksi_im := y.dksi_im
    dksi_re := -(k * k - zpp_over_z) * y.ksi_re
    dksi_im := -(k * k - zpp_over_z) * y.ksi_im
    ah_re := y.dah_re
    ah_im := y.dah_im
    dah_re := -(k * k - app_over_a) * y.ah_re
    dah_im := -(k * k - app_over_a) * y.ah_im }

/-- The stepping loop of `primordial_inflation_evolve_background`.
Arguments after the fixed context `(p, pr, O, phi_stop)` are: remaining
fuel, current state `y`, current `dtau`, current `epsilon`, current
`tau_end`.  Each iteration whose entry condition
`y.phi <= phi_stop - y.dphi*dtau` holds validates the potential at the
current field value, recomputes the derivatives and the adaptive step,
advances by one integrator call, recomputes `epsilon` (at `y.dphi`, as the
source does), and fails when `epsilon` crosses from `<= 1` to `> 1`.
Returns the final state and `tau_end` when the condition fails. -/
def primordial_inflation_evolve_background_loop (p : PotParams) (pr : Precision)
    (O : BgOracle) (phi_stop : ℝ) :
    ℕ → BgY → ℝ → ℝ → ℝ → Except ErrKind (BgY × ℝ)
  | 0, y, dtau, _, tau_end =>
      if y.phi ≤ phi_stop - y.dphi * dtau then .error .outOfFuel
      else .ok (y, tau_end)
  | fuel + 1, y, dtau, epsilon, tau_end =>
      if y.phi ≤ phi_stop - y.dphi * dtau then
        match primordial_inflation_check_potential p y.phi with
        | .error e => .error e
        | .ok _ =>
            let dy := primordial_inflation_derivs_bg p y
            let aH := dy.a / y.a
            let dtau' := pr.bg_stepsize * min (1 / aH) |y.dphi / dy.dphi|
            let tau_end' := tau_end + dtau'
            let y' := O tau_end tau_end' y
            let epsilon' := primordial_inflation_get_epsilon p y'.dphi
            if 1 < epsilon' ∧ epsilon ≤ 1 then .error .inflationDisrupted
            else primordial_inflation_evolve_background_loop p pr O phi_stop
                fuel y' dtau' epsilon' tau_end'
      else .ok (y, tau_end)

/-- `primordial_inflation_evolve_background`: initial `epsilon` (evaluated,
as in the source, at `y.dphi`), initial derivatives and step, the stepping
loop, and, after the loop exits, the final linear extrapolation correction
`dtau = (phi_stop - y.phi)/dy.dphi; y += dy*dtau` exactly as the source
writes it (the correction divides by the `dphi`-derivative slot
`dy[index_in_dphi]`). -/
def primordial_inflation_evolve_background (p : PotParams) (pr : Precision)
    (O : BgOracle) (fuel : ℕ) (y0 : BgY) (phi_stop : ℝ) : Except ErrKind BgY :=
  let epsilon := primordial_inflation_get_epsilon p y0.dphi
  let dy0 := primordial_inflation_derivs_bg p y0
  let aH0 := dy0.a / y0.a
  let dtau0 := pr.bg_stepsize * min (1 / aH0) |y0.dphi / dy0.dphi|
  (primordial_inflation_evolve_background_loop p pr O phi_stop fuel y0 dtau0
      epsilon 0).map
    (fun yt =>
      let y := yt.1
      let dy := primordial_inflation_derivs_bg p y
      let dtau := (phi_stop - y.phi) / dy.dphi
      ⟨y.a + dy.a * dtau, y.phi + dy.phi * dtau, y.dphi + dy.dphi * dtau⟩)

/-- The fixed-point loop of `primordial_inflation_find_attractor`.  The
context carries `V_0` and `dV_0`, the potential values the source computed
at the local variable `phi` BEFORE it is assigned `phi_0` (an uninitialized
read; see `primordial_inflation_find_attractor`).  Per unconverged
iteration: shift the trial field by `dV_0/V_0/16/pi`, validate the
potential there, start a slow-roll state and evolve it to `phi_0`, and read
off the new `dphidt` estimate.  Fuel exhaustion models the
`counter >= maxit` fatal test. -/
def primordial_inflation_find_attractor_loop (p : PotParams) (pr : Precision)
    (O : BgOracle) (bgFuel : ℕ) (phi_0 precision V_0 dV_0 : ℝ) :
    ℕ → ℝ → ℝ → ℝ → Except ErrKind ℝ
  | 0, dphidt_0new, dphidt_0old, _ =>
      if precision ≤ |dphidt_0new / dphidt_0old - 1| then .error .noAttractor
      else .ok dphidt_0new
  | fuel + 1, dphidt_0new, dphidt_0old, phi =>
      if precision ≤ |dphidt_0new / dphidt_0old - 1| then
        let phi' := phi + dV_0 / V_0 / 16 / Real.pi
        match primordial_inflation_check_potential p phi' with
        | .error e => .error e
        | .ok _ =>
            let V := (primordial_inflation_potential p phi').1
            let dV := (primordial_inflation_potential p phi').2.1
            let dphidt := -dV / 3 / Real.sqrt (8 * Real.pi / 3 * V)
            match primordial_inflation_evolve_background p pr O bgFuel
                ⟨1, phi', 1 * dphidt⟩ phi_0 with
            | .error e => .error e
            | .ok y' =>
                primordial_inflation_find_attractor_loop p pr O bgFuel phi_0
                  precision V_0 dV_0 fuel (y'.dphi / y'.a) dphidt_0new phi'
      else .ok dphidt_0new
  termination_by fuel _ _ _ => fuel

/-- `primordial_inflation_find_attractor`.  The parameter `junkPhi` models
the value held by the local variable `phi` when the source evaluates
`primordial_inflation_potential(ppm, phi, &V_0, &dV_0, &ddV_0)` before
`phi = phi_0` is executed: in the C source that variable is read
uninitialized at this point, so the embedding exposes it as an input.
The returned pair is `(H_0, dphidt_0)` with
`H_0 = sqrt((8 pi/3)(dphidt_0^2/2 + V_0))`, `V_0` being the junk-derived
potential value. -/
def primordial_inflation_find_attractor (p : PotParams) (pr : Precision)
    (O : BgOracle) (bgFuel attractorFuel : ℕ) (phi_0 precision junkPhi : ℝ) :
    Except ErrKind (ℝ × ℝ) :=
  let V_0 := (primordial_inflation_potential p junkPhi).1
  let dV_0 := (primordial_inflation_potential p junkPhi).2.1
  let dphidt_0new := -dV_0 / 3 / Real.sqrt (8 * Real.pi / 3 * V_0)
  let dphidt_0old := dphidt_0new / (precision + 2)
  (primordial_inflation_find_attractor_loop p pr O bgFuel phi_0 precision V_0
      dV_0 attractorFuel dphidt_0new dphidt_0old phi_0).map
    (fun dphidt_0 =>
      (Real.sqrt (8 * Real.pi / 3 * (0.5 * dphidt_0 * dphidt_0 + V_0)),
       dphidt_0))

/-- The initial conditions of `primordial_inflation_one_k`: both mode
functions set to `1/sqrt(2k)` in the real slot, zero imaginary part, zero
real-derivative slot, and imaginary-derivative slot `-k` times the
mode-function value. -/
def primordial_inflation_one_k_init (k : ℝ) (y : InflY) : InflY :=
  { y with
    ksi_re := 1 / Real.sqrt (2 * k)
    ksi_im := 0
    dksi_re := 0
    dksi_im := -k * (1 / Real.sqrt (2 * k))
    ah_re := 1 / Real.sqrt (2 * k)
    ah_im := 0
    dah_re := 0
    dah_im := -k * (1 / Real.sqrt (2 * k)) }

/-- Loop state of the per-wavenumber mode integration: the state vector plus
the quantities (`dtau`, `tau_end`, `aH`, `curvature_new`, `dlnPdN`) carried
across iterations of the do-while loop. -/
@[ext]
structure OneKLoopState where
  y : InflY
  dtau : ℝ
  tau_end : ℝ
  aH : ℝ
  curvature : ℝ
  dlnPdN : ℝ

/-- One iteration of the do-while loop body of `primordial_inflation_one_k`:
advance by one integrator call over `[tau_end, tau_end + dtau]`, recompute
the derivatives, the oscillation-frequency step
`dtau = pt_stepsize*2*pi/max(sqrt|dksi'/ksi|, k)`, `aH`, the dimensionless
curvature spectrum `k^3/(2 pi^2) |ksi|^2/z^2` with `z = a*dphi/aH`, and its
fractional change per e-fold. -/
def primordial_inflation_one_k_body (p : PotParams) (pr : Precision)
    (O : InflOracle) (k : ℝ) (s : OneKLoopState) : OneKLoopState :=
  let tau_start := s.tau_end
  let tau_end := tau_start + s.dtau
  let y := O tau_start tau_end s.y
  let dy := primordial_inflation_derivs p k y
  let dtau := pr.pt_stepsize * 2 * Real.pi
      / max (Real.sqrt |dy.dksi_re / y.ksi_re|) k
  let aH := dy.a / y.a
  let curvature_old := s.curvature
  let z := y.a * y.dphi / aH
  let ksi2 := y.ksi_re * y.ksi_re + y.ksi_im * y.ksi_im
  let curvature_new := k * k * k / 2 / Real.pi / Real.pi * ksi2 / z / z
  let dlnPdN := (curvature_new - curvature_old) / dtau * y.a / dy.a
      / curvature_new
  ⟨y, dtau, tau_end, aH, curvature_new, dlnPdN⟩

/-- The do-while loop of `primordial_inflation_one_k`: run the body, then
continue while `k/aH >= ratio_max` (horizon not yet crossed by the
configured ratio) or `|dlnPdN| > tol_curvature` (spectrum not yet frozen).
`none` is the fuel cut-off. -/
def primordial_inflation_one_k_loop (p : PotParams) (pr : Precision)
    (O : InflOracle) (k : ℝ) : ℕ → OneKLoopState → Option OneKLoopState
  | 0, _ => none
  | fuel + 1, s =>
      if pr.ratio_max ≤ k / (primordial_inflation_one_k_body p pr O k s).aH ∨
          pr.tol_curvature
            < |(primordial_inflation_one_k_body p pr O k s).dlnPdN| then
        primordial_inflation_one_k_loop p pr O k fuel
          (primordial_inflation_one_k_body p pr O k s)
      else some (primordial_inflation_one_k_body p pr O k s)

/-- `primordial_inflation_one_k`: set the Bunch-Davies initial conditions,
compute the initial step from the local oscillation frequency, run the
do-while loop, and return the final curvature together with the tensor
amplitude `32 k^3/pi |ah|^2/a^2`. -/
def primordial_inflation_one_k (p : PotParams) (pr : Precision)
    (O : InflOracle) (k : ℝ) (fuel : ℕ) (y0 : InflY) : Option (ℝ × ℝ) :=
  let y := primordial_inflation_one_k_init k y0
  let dy := primordial_inflation_derivs p k y
  let dtau := pr.pt_stepsize * 2 * Real.pi
      / max (Real.sqrt |dy.dksi_re / y.ksi_re|) k
  (primordial_inflation_one_k_loop p pr O k fuel
      ⟨y, dtau, 0, 0, 10 ^ (10 : ℕ), 0⟩).map
    (fun s =>
      let ah2 := s.y.ah_re * s.y.ah_re + s.y.ah_im * s.y.ah_im
      (s.curvature, 32 * k * k * k / Real.pi * ah2 / s.y.a / s.y.a))

/-- The per-wavenumber validation and storage step of
`primordial_inflation_spectra`: given the `(curvature, tensor)` pair
produced by the mode integrator for one `k`, fail fatally on a
non-positive curvature (first test) or tensor (second test) value, and
otherwise store the pair `(ln curvature, ln tensor)`. -/
def primordial_inflation_spectra_store (curvature tensor : ℝ) :
    Except ErrKind (ℝ × ℝ) :=
  if curvature ≤ 0 then .error .negativeCurvature
  else if tensor ≤ 0 then .error .negativeTensor
  else .ok (Real.log curvature, Real.log tensor)

/-- The `index_k` loop of `primordial_inflation_spectra` over the k-grid,
with the per-`k` pipeline (reset to the initial state, reach `aH`, run the
mode integrator) abstracted as a function `modeOut` from the wavenumber to
the computed `(curvature, tensor)` pair.  Any fatal store step aborts the
whole spectrum computation. -/
def primordial_inflation_spectra_loop (modeOut : ℝ → ℝ × ℝ) :
    List ℝ → Except ErrKind (List (ℝ × ℝ))
  | [] => .ok []
  | k :: ks =>
      match primordial_inflation_spectra_store (modeOut k).1 (modeOut k).2 with
      | .error e => .error e
      | .ok v =>
          match primordial_inflation_spectra_loop modeOut ks with
          | .error e => .error e
          | .ok vs => .ok (v :: vs)

/-- The two spectrum types implemented by the module. -/
inductive SpecType where
  | analytic_Pk
  | inflation_V
  deriving DecidableEq, Repr

/-- The `linear_or_logarithmic` mode flag of `primordial_spectrum_at_k`. -/
inductive LinLog where
  | linear
  | logarithmic
  deriving DecidableEq, Repr

/-- The pre-computed primordial table, i.e. the fields of the `primordial`
structure read by `primordial_spectrum_at_k`.  The packed
symmetric-pair arrays `is_non_zero`, `amplitude`, `tilt`, `running` and the
output arrays are modelled as functions of the index pair `(ic1, ic2)`
directly: the packing function `index_symmetric_matrix` lives in the
repository's common header (outside this source file); the specification
describes it as an injective addressing function with invariant
`ic1 <= ic2`, so the pair-indexed view is the same array. -/
structure SpectrumTable where
  lnk_size : ℕ
  lnk : ℕ → ℝ
  spec_type : SpecType
  ic_size : ℕ → ℕ
  is_non_zero : ℕ → ℕ → ℕ → Bool
  amplitude : ℕ → ℕ → ℕ → ℝ
  tilt : ℕ → ℕ → ℕ → ℝ
  running : ℕ → ℕ → ℕ → ℝ
  k_pivot : ℝ

/-- `primordial_analytic_spectrum`: for a non-zero pair, the closed form
`A * exp((n-1) ln(k/k_pivot) + (1/2) alpha ln(k/k_pivot)^2)`; zero
otherwise. -/
def primordial_analytic_spectrum (tbl : SpectrumTable) (index_mode i j : ℕ)
    (k : ℝ) : ℝ :=
  if tbl.is_non_zero index_mode i j = true then
    tbl.amplitude index_mode i j
      * Real.exp ((tbl.tilt index_mode i j - 1) * Real.log (k / tbl.k_pivot)
          + 0.5 * tbl.running index_mode i j * Real.log (k / tbl.k_pivot) ^ 2)
  else 0

/-- The `ln(k)` the routine works with: `log input` in linear mode, `input`
itself in logarithmic mode. -/
def lnk_of (mode : LinLog) (input : ℝ) : ℝ :=
  match mode with
  | .linear => Real.log input
  | .logarithmic => input

/-- `primordial_spectrum_at_k`.  Returns the error status together with the
(caller-allocated) output array, pair-indexed as explained at
`SpectrumTable`.  In linear mode a non-positive `input` is rejected before
anything is computed.  A query outside the closed tabulated range
`[lnk 0, lnk (lnk_size-1)]` is an error unless the spectrum type is
analytic, in which case the non-zero pair entries are computed by
`primordial_analytic_spectrum` (followed, in logarithmic mode, by the
log/cross-correlation transformation in the source's order: diagonals
logged first, then off-diagonals divided using the already-logged
diagonals).  A query inside the range is answered by the external spline
interpolator, modelled by the oracle `spline` (followed, in linear mode, by
the exp/cross-correlation transformation). -/
def primordial_spectrum_at_k (tbl : SpectrumTable) (index_mode : ℕ)
    (mode : LinLog) (spline : ℝ → ℕ → ℕ → ℝ) (input : ℝ)
    (output0 : ℕ → ℕ → ℝ) : Except ErrKind Unit × (ℕ → ℕ → ℝ) :=
  if mode = .linear ∧ input ≤ 0 then (.error .kNonPositive, output0)
  else
    let lnk := lnk_of mode input
    let n := tbl.ic_size index_mode
    if tbl.lnk (tbl.lnk_size - 1) < lnk ∨ lnk < tbl.lnk 0 then
      if tbl.spec_type ≠ SpecType.analytic_Pk then (.error .outOfRange, output0)
      else
        let out1 : ℕ → ℕ → ℝ := fun i j =>
          if i ≤ j ∧ j < n then
            primordial_analytic_spectrum tbl index_mode i j (Real.exp lnk)
          else output0 i j
        match mode with
        | .linear => (.ok (), out1)
        | .logarithmic =>
            let out2 : ℕ → ℕ → ℝ := fun i j =>
              if i = j ∧ j < n then Real.log (out1 i j) else out1 i j
            let out3 : ℕ → ℕ → ℝ := fun i j =>
              if i < j ∧ j < n ∧ tbl.is_non_zero index_mode i j = true then
                out2 i j / Real.sqrt (out2 i i * out2 j j)
              else out2 i j
            (.ok (), out3)
    else
      let outS := spline lnk
      match mode with
      | .logarithmic => (.ok (), outS)
      | .linear =>
          let out2 : ℕ → ℕ → ℝ := fun i j =>
            if i = j ∧ j < n then Real.exp (outS i j) else outS i j
          let out3 : ℕ → ℕ → ℝ := fun i j =>
            if i < j ∧ j < n then
              if tbl.is_non_zero index_mode i j = true then
                out2 i j * Real.sqrt (out2 i i * out2 j j)
              else 0
            else out2 i j
          (.ok (), out3)

/-- The derived phenomenological numbers computed at the end of
`primordial_init` for a non-analytic spectrum. -/
structure SpectralParams where
  A_s : ℝ
  n_s : ℝ
  alpha_s : ℝ
  r : ℝ
  n_t : ℝ
  alpha_t : ℝ

/-- The finite-differencing block at the end of `primordial_init`
(non-analytic case, scalars and tensors requested): query the spectrum in
logarithmic mode at `ln k_pivot` and `ln k_pivot +- dlnk` with
`dlnk = ln 10 / k_per_decade`, for the scalar and the tensor mode, and
combine the six log-spectrum values into
`A_s, n_s, alpha_s, r, n_t, alpha_t` by two-sided finite differences. -/
def primordial_derive_spectral_params (tbl : SpectrumTable)
    (spline : ℕ → ℝ → ℕ → ℕ → ℝ) (index_md_scalars index_md_tensors : ℕ)
    (k_per_decade : ℝ) (output0 : ℕ → ℕ → ℝ) : Except ErrKind SpectralParams :=
  let dlnk := Real.log 10 / k_per_decade
  match primordial_spectrum_at_k tbl index_md_scalars .logarithmic
      (spline index_md_scalars) (Real.log tbl.k_pivot) output0 with
  | (.error e, _) => .error e
  | (.ok _, o0) =>
  match primordial_spectrum_at_k tbl index_md_scalars .logarithmic
      (spline index_md_scalars) (Real.log tbl.k_pivot + dlnk) output0 with
  | (.error e, _) => .error e
  | (.ok _, op) =>
  match primordial_spectrum_at_k tbl index_md_scalars .logarithmic
      (spline index_md_scalars) (Real.log tbl.k_pivot - dlnk) output0 with
  | (.error e, _) => .error e
  | (.ok _, om) =>
  let A_s := Real.exp (o0 0 0)
  let n_s := (op 0 0 - om 0 0) / (2 * dlnk) + 1
  let alpha_s := (op 0 0 - 2 * o0 0 0 + om 0 0) / dlnk ^ 2
  match primordial_spectrum_at_k tbl index_md_tensors .logarithmic
      (spline index_md_tensors) (Real.log tbl.k_pivot) output0 with
  | (.error e, _) => .error e
  | (.ok _, t0) =>
  match primordial_spectrum_at_k tbl index_md_tensors .logarithmic
      (spline index_md_tensors) (Real.log tbl.k_pivot + dlnk) output0 with
  | (.error e, _) => .error e
  | (.ok _, tp) =>
  match primordial_spectrum_at_k tbl index_md_tensors .logarithmic
      (spline index_md_tensors) (Real.log tbl.k_pivot - dlnk) output0 with
  | (.error e, _) => .error e
  | (.ok _, tm) =>
  .ok
    { A_s := A_s
      n_s := n_s
      alpha_s := alpha_s
      r := Real.exp (t0 0 0) / A_s
      n_t := (tp 0 0 - tm 0 0) / (2 * dlnk)
      alpha_t := (tp 0 0 - 2 * t0 0 0 + tm 0 0) / dlnk ^ 2 }

/-! ## Concrete instances used in the demonstrations below -/

/-- Linear potential `V(phi) = 10 - phi`: positive with strictly negative
slope on the whole field range explored in the runs below. -/
def pLin : PotParams := ⟨10, -1, 0, 0, 0, 0⟩

/-- Precision with unit background step-size factor (only `bg_stepsize` is
read by the background runs below). -/
def prOne : Precision := ⟨1, 1, 10, 1⟩

/-- Identity integrator oracle (never reached in the runs that use it). -/
def Oid : BgOracle := fun _ _ y => y

/-- Constant background integrator oracle jumping to the state
`(a, phi, dphi) = (1, 0, 9.9)`. -/
def OC2 : BgOracle := fun _ _ _ => ⟨1, 0, 99 / 10⟩

/-- Linear potential `V(phi) = 27/(2 pi) - 81/(8 pi) phi`, chosen so that
the slow-roll start values of the attractor search are exactly
`9/(16 pi)` (from field value `0`) and `9/(8 pi)` (from field value `1`). -/
def pAtt : PotParams :=
  ⟨27 / (2 * Real.pi), -81 / (8 * Real.pi), 0, 0, 0, 0⟩

/-- Precision with zero background step-size factor: every adaptive
background step collapses to `dtau = 0`, which keeps the run exactly
computable. -/
def prAtt : Precision := ⟨0, 1, 10, 1⟩

/-- Constant background integrator oracle jumping to
`(a, phi, dphi) = (1, 1, 3)`. -/
def OAtt : BgOracle := fun _ _ _ => ⟨1, 1, 3⟩

/-- The Hubble rate at the state `(1, 1, 3)` under `pAtt`:
`sqrt((8 pi/3)(9/2 + 27/(8 pi))) = sqrt(12 pi + 9)`. -/
def sAtt : ℝ := Real.sqrt (12 * Real.pi + 9)

/-- The linear-extrapolation time step of the background evolver at the
state `(1, 1, 3)` under `pAtt` with `phi_stop = 0`. -/
def dtauAtt : ℝ := (0 - 1) / (-(6 * sAtt) + 81 / (8 * Real.pi))

/-- The state the background evolver returns from the state `(1, 1, 3)`
under `pAtt` after its final extrapolation correction. -/
def yAttCorr : BgY := ⟨1 + sAtt * dtauAtt, 1 + 3 * dtauAtt, 2⟩

/-- The field velocity estimate every attractor iteration reads off the
evolved state `yAttCorr`. -/
def wAtt : ℝ := yAttCorr.dphi / yAttCorr.a

/-- Potential for the mode-integration run: `V0 = 3/(2 pi) - 1/2` makes the
Hubble rate at the state `yMode` exactly `2`, and
`V2 = 8 pi^2 - 28 pi + 7` makes the effective mass `z''/z` there exactly
`1 = k^2`.  Note `V(0) = 3/(2 pi) - 1/2 < 0`: the mode integrator runs
through this field value without any potential validation. -/
def pMode : PotParams :=
  ⟨3 / (2 * Real.pi) - 1 / 2, 0, 8 * Real.pi ^ 2 - 28 * Real.pi + 7, 0, 0, 0⟩

/-- Precision for the mode-integration run: `pt_stepsize = 1/(2 pi)` makes
the recomputed step exactly `1`; `ratio_max = 10`, `tol_curvature = 1`. -/
def prMode : Precision := ⟨1, 1 / (2 * Real.pi), 10, 1⟩

/-- The full state the constant mode-integration oracle jumps to. -/
def yMode : InflY := ⟨1, 0, 1, 1, 0, 0, 0, 0, 0, 0, 0⟩

/-- Constant full integrator oracle jumping to `yMode`. -/
def OMode : InflOracle := fun _ _ _ => yMode

/-- Mode-integration loop state entering the traced iteration. -/
def sMode0 : OneKLoopState := ⟨yMode, 0, 0, 0, 2 / Real.pi ^ 2, 0⟩

/-- Mode-integration loop state after the traced iteration. -/
def sMode1 : OneKLoopState := ⟨yMode, 1, 0, 2, 2 / Real.pi ^ 2, 0⟩

/-- Analytic two-node table: `lnk = [0, 1]`, one initial condition with
amplitude 1, tilt 1, zero running, `k_pivot = 1`. -/
def tblA : SpectrumTable :=
  { lnk_size := 2
    lnk := fun i => if i = 0 then 0 else 1
    spec_type := .analytic_Pk
    ic_size := fun _ => 1
    is_non_zero := fun _ _ _ => true
    amplitude := fun _ _ _ => 1
    tilt := fun _ _ _ => 1
    running := fun _ _ _ => 0
    k_pivot := 1 }

/-- The same table with a non-analytic (inflationary) spectrum type. -/
def tblI : SpectrumTable := { tblA with spec_type := .inflation_V }

/-- Non-analytic table with the wide tabulated range `lnk = [-100, 100]`,
covering the pivot and its finite-difference neighbours. -/
def tblW : SpectrumTable :=
  { tblI with lnk := fun i => if i = 0 then -100 else 100 }

/-- Constant spline oracle returning 37 everywhere. -/
def spline37 : ℝ → ℕ → ℕ → ℝ := fun _ _ _ => 37

/-- Constant mode-indexed spline oracle returning 5 everywhere. -/
def spline5 : ℕ → ℝ → ℕ → ℕ → ℝ := fun _ _ _ _ => 5

/-- The all-zero caller-supplied output array. -/
def zeroOut : ℕ → ℕ → ℝ := fun _ _ => 0

/-! ## Helper lemmas -/

theorem spectra_store_pos {c t : ℝ} (hc : 0 < c) (ht : 0 < t) :
    primordial_inflation_spectra_store c t = .ok (Real.log c, Real.log t) := by
  simp [primordial_inflation_spectra_store, not_le.mpr hc, not_le.mpr ht]

theorem spectra_store_err_left {c : ℝ} (t : ℝ) (hc : c ≤ 0) :
    primordial_inflation_spectra_store c t = .error .negativeCurvature := by
  simp [primordial_inflation_spectra_store, hc]

theorem spectra_store_err_right {c t : ℝ} (hc : 0 < c) (ht : t ≤ 0) :
    primordial_inflation_spectra_store c t = .error .negativeTensor := by
  simp [primordial_inflation_spectra_store, not_le.mpr hc, ht]

theorem check_potential_ok {p : PotParams} {phi : ℝ}
    (h1 : 0 < (primordial_inflation_potential p phi).1)
    (h2 : (primordial_inflation_potential p phi).2.1 < 0) :
    primordial_inflation_check_potential p phi = .ok () := by
  simp only [primordial_inflation_check_potential]
  rw [if_neg (not_le.mpr h1), if_neg (not_le.mpr h2)]

/-- At the state `yMode` the argument of the Hubble-rate square root under
the potential `pMode` is exactly `4`. -/
theorem aH_pMode : Real.sqrt (8 * Real.pi / 3 *
    (0.5 * yMode.dphi * yMode.dphi + yMode.a * yMode.a *
      (primordial_inflation_potential pMode yMode.phi).1)) = 2 := by
  have harg : 8 * Real.pi / 3 * (0.5 * yMode.dphi * yMode.dphi
      + yMode.a * yMode.a
        * (primordial_inflation_potential pMode yMode.phi).1) = 4 := by
    simp only [yMode, pMode, primordial_inflation_potential]
    have hpi := Real.pi_ne_zero
    field_simp
    ring
  rw [harg, show (4 : ℝ) = 2 ^ 2 by norm_num, Real.sqrt_sq (by norm_num)]

/-- Full derivative vector at `yMode` under `pMode` for `k = 1`. -/
theorem derivs_pMode_eval :
    primordial_inflation_derivs pMode 1 yMode
      = ⟨2, 1, -4, 0, 0, 0, 0, 0, 0, 0, 0⟩ := by
  simp only [primordial_inflation_derivs]
  rw [aH_pMode]
  ext <;>
    simp [yMode, pMode, primordial_inflation_potential] <;>
    ring_nf

/-- One traced iteration of the mode-integration loop body. -/
theorem one_k_body_eval :
    primordial_inflation_one_k_body pMode prMode OMode 1 sMode0 = sMode1 := by
  have hpi := Real.pi_ne_zero
  simp only [primordial_inflation_one_k_body, OMode]
  rw [derivs_pMode_eval]
  simp only [sMode0, sMode1, yMode, prMode]
  norm_num [OneKLoopState.mk.injEq, Real.sqrt_zero]
  refine ⟨by field_simp; ring, by field_simp; ring, Or.inl (by field_simp; ring)⟩

/-- The traced mode-integration loop run: one body iteration, then both
termination conditions hold and the loop stops. -/
theorem one_k_loop_eval :
    primordial_inflation_one_k_loop pMode prMode OMode 1 1 sMode0
      = some sMode1 := by
  rw [primordial_inflation_one_k_loop, one_k_body_eval,
    if_neg (by norm_num [sMode1, prMode])]

/-- Under `pMode` the potential at field value `0` is non-positive, so the
potential check fails there. -/
theorem check_pMode_zero :
    primordial_inflation_check_potential pMode 0
      = .error .potentialNonPositive := by
  have hV : (primordial_inflation_potential pMode 0).1 ≤ 0 := by
    have h3 : (3 : ℝ) < Real.pi := Real.pi_gt_three
    have h0 : (0 : ℝ) < Real.pi := Real.pi_pos
    simp only [primordial_inflation_potential, pMode]
    norm_num
    rw [div_le_iff₀ (by positivity)]
    nlinarith
  simp only [primordial_inflation_check_potential]
  rw [if_pos hV]

theorem check_pAtt_neg (phi : ℝ) (h : phi < 0) :
    primordial_inflation_check_potential pAtt phi = .ok () := by
  have hpi : (0 : ℝ) < Real.pi := Real.pi_pos
  have hneg : -81 / (8 * Real.pi) < 0 :=
    div_neg_of_neg_of_pos (by norm_num) (by positivity)
  refine check_potential_ok ?_ ?_
  · simp only [primordial_inflation_potential, pAtt]
    have h1 : (0 : ℝ) < 27 / (2 * Real.pi) := by positivity
    have hprod : 0 < (phi - 0) * (-81 / (8 * Real.pi)) :=
      mul_pos_of_neg_of_neg (by linarith) hneg
    nlinarith [h1, hprod]
  · simp only [primordial_inflation_potential, pAtt]
    nlinarith [hneg]

theorem sAtt_lb : 3 ≤ sAtt := by
  have h : Real.sqrt 9 ≤ sAtt := by
    apply Real.sqrt_le_sqrt
    nlinarith [Real.pi_pos]
  rwa [show (9 : ℝ) = 3 ^ 2 by norm_num, Real.sqrt_sq (by norm_num)] at h

theorem sAtt_ub : sAtt ≤ 8 := by
  have h : sAtt ≤ Real.sqrt 64 := by
    apply Real.sqrt_le_sqrt
    nlinarith [Real.pi_lt_d2]
  rwa [show (64 : ℝ) = 8 ^ 2 by norm_num, Real.sqrt_sq (by norm_num)] at h

theorem DAtt_neg : -(6 * sAtt) + 81 / (8 * Real.pi) < 0 := by
  have h3 : (3 : ℝ) < Real.pi := Real.pi_gt_three
  have hc : 81 / (8 * Real.pi) < 81 / 24 := by
    apply div_lt_div_of_pos_left (by norm_num) (by norm_num)
    linarith
  nlinarith [sAtt_lb]

theorem derivs_bg_pAtt_113 :
    primordial_inflation_derivs_bg pAtt ⟨1, 1, 3⟩
      = ⟨sAtt, 3, -(6 * sAtt) + 81 / (8 * Real.pi)⟩ := by
  have hpi := Real.pi_ne_zero
  have harg : 8 * Real.pi / 3 * (0.5 * (⟨1, 1, 3⟩ : BgY).dphi
      * (⟨1, 1, 3⟩ : BgY).dphi + (⟨1, 1, 3⟩ : BgY).a * (⟨1, 1, 3⟩ : BgY).a
        * (primordial_inflation_potential pAtt (⟨1, 1, 3⟩ : BgY).phi).1)
      = 12 * Real.pi + 9 := by
    simp only [primordial_inflation_potential, pAtt]
    field_simp
    ring
  simp only [primordial_inflation_derivs_bg]
  rw [harg]
  ext <;>
    (simp [pAtt, primordial_inflation_potential, sAtt]; try ring)


theorem eps_pAtt_3 : primordial_inflation_get_epsilon pAtt 3 ≤ 1 := by
  have hpi0 : (0 : ℝ) < Real.pi := Real.pi_pos
  have hpi3 : (3 : ℝ) < Real.pi := Real.pi_gt_three
  have hval : primordial_inflation_get_epsilon pAtt 3
      = 9 / (400 * Real.pi) := by
    simp only [primordial_inflation_get_epsilon,
      primordial_inflation_potential, pAtt]
    have hden : 27 / (2 * Real.pi) + (3 - 0) * (-81 / (8 * Real.pi))
        + (3 - 0) ^ 2 / 2 * 0 + (3 - 0) ^ 3 / 6 * 0 + (3 - 0) ^ 4 / 24 * 0
        = -135 / (8 * Real.pi) := by
      field_simp
      ring
    have hnum : -81 / (8 * Real.pi) + (3 - 0) * 0 + (3 - 0) ^ 2 / 2 * 0
        + (3 - 0) ^ 3 / 6 * 0 = -81 / (8 * Real.pi) := by ring
    rw [hden, hnum]
    have hne : (-135 : ℝ) / (8 * Real.pi) ≠ 0 :=
      div_ne_zero (by norm_num) (by positivity)
    have hrat : -81 / (8 * Real.pi) / (-135 / (8 * Real.pi)) = 3 / 5 := by
      rw [div_eq_iff hne]
      field_simp
      ring
    rw [hrat]
    field_simp
    ring
  rw [hval, div_le_one (by positivity)]
  nlinarith


theorem DAtt_denom_pos : 0 < 6 * sAtt - 81 / (8 * Real.pi) := by
  have := DAtt_neg
  linarith

theorem dtauAtt_eq : dtauAtt = 1 / (6 * sAtt - 81 / (8 * Real.pi)) := by
  rw [dtauAtt, show -(6 * sAtt) + 81 / (8 * Real.pi)
      = -(6 * sAtt - 81 / (8 * Real.pi)) by ring, div_neg]
  rw [show (0 : ℝ) - 1 = -1 by norm_num, neg_div, neg_neg, one_div]

theorem dtauAtt_pos : 0 < dtauAtt := by
  rw [dtauAtt_eq]
  exact one_div_pos.mpr DAtt_denom_pos

theorem yAttCorr_a_bounds : 1 < yAttCorr.a ∧ yAttCorr.a ≤ 4 / 3 := by
  have hs3 : 3 ≤ sAtt := sAtt_lb
  have hsd : sAtt * dtauAtt ≤ 1 / 3 := by
    rw [dtauAtt_eq, mul_one_div, div_le_div_iff₀ DAtt_denom_pos (by norm_num)]
    have hc : 81 / (8 * Real.pi) < 81 / 24 := by
      apply div_lt_div_of_pos_left (by norm_num) (by norm_num)
      linarith [Real.pi_gt_three]
    nlinarith
  have hsd0 : 0 < sAtt * dtauAtt :=
    mul_pos (by linarith) dtauAtt_pos
  constructor
  · show 1 < 1 + sAtt * dtauAtt
    linarith
  · show 1 + sAtt * dtauAtt ≤ 4 / 3
    linarith

theorem wAtt_lb : 3 / 2 ≤ wAtt := by
  have h := yAttCorr_a_bounds
  show 3 / 2 ≤ yAttCorr.dphi / yAttCorr.a
  have h2 : yAttCorr.dphi = 2 := rfl
  rw [h2, le_div_iff₀ (by linarith [h.1])]
  linarith [h.2]

theorem wAtt_ub : wAtt ≤ 2 := by
  have h := yAttCorr_a_bounds
  show yAttCorr.dphi / yAttCorr.a ≤ 2
  have h2 : yAttCorr.dphi = 2 := rfl
  rw [h2, div_le_iff₀ (by linarith [h.1])]
  linarith [h.1]

theorem wAtt_pos : 0 < wAtt := by
  linarith [wAtt_lb]


theorem evolve_pAtt (y : BgY) (hphi : y.phi < 0) :
    primordial_inflation_evolve_background pAtt prAtt OAtt 2 y 0
      = .ok yAttCorr := by
  have hz : prAtt.bg_stepsize = 0 := rfl
  have heps3 := eps_pAtt_3
  have hloop : ∀ epsilon tau : ℝ,
      primordial_inflation_evolve_background_loop pAtt prAtt OAtt 0 2 y 0
        epsilon tau = .ok (⟨1, 1, 3⟩, tau + 0) := by
    intro epsilon tau
    rw [primordial_inflation_evolve_background_loop,
      if_pos (by simpa using hphi.le)]
    rw [check_pAtt_neg y.phi hphi]
    simp only [OAtt, hz, zero_mul]
    rw [if_neg (fun hcon => absurd hcon.1 (not_lt.mpr heps3))]
    rw [primordial_inflation_evolve_background_loop, if_neg (by norm_num)]
  simp only [primordial_inflation_evolve_background, hz, zero_mul]
  rw [hloop]
  simp only [Except.map]
  rw [derivs_bg_pAtt_113]
  refine congrArg Except.ok ?_
  have hne : -(6 * sAtt) + 81 / (8 * Real.pi) ≠ 0 := ne_of_lt DAtt_neg
  simp only [yAttCorr, dtauAtt]
  ext
  · rfl
  · rfl
  · show (3 : ℝ) + (-(6 * sAtt) + 81 / (8 * Real.pi))
        * ((0 - 1) / (-(6 * sAtt) + 81 / (8 * Real.pi))) = 2
    rw [mul_comm, div_mul_cancel₀ _ hne]
    norm_num


theorem attractor_loop_pAtt (V_0 dV_0 new0 : ℝ) (hV : 0 < V_0)
    (hdV : dV_0 < 0) (hn0 : 0 < new0) (hnub : new0 ≤ 3 / 8) :
    primordial_inflation_find_attractor_loop pAtt prAtt OAtt 2 0 (1 / 4) V_0
      dV_0 3 new0 (new0 / (1 / 4 + 2)) 0 = .ok wAtt := by
  have hstep : dV_0 / V_0 / 16 / Real.pi < 0 :=
    div_neg_of_neg_of_pos
      (div_neg_of_neg_of_pos (div_neg_of_neg_of_pos hdV hV) (by norm_num))
      Real.pi_pos
  have hr : new0 / (new0 / (1 / 4 + 2)) = 1 / 4 + 2 := by
    rw [div_div_eq_mul_div, mul_comm, mul_div_assoc,
      div_self (ne_of_gt hn0), mul_one]
  have hw4 : (4 : ℝ) ≤ wAtt / new0 := by
    rw [le_div_iff₀ hn0]
    nlinarith [wAtt_lb]
  have hww : wAtt / wAtt = 1 := div_self (ne_of_gt wAtt_pos)
  rw [primordial_inflation_find_attractor_loop,
    if_pos (by
      rw [hr, show (1 : ℝ) / 4 + 2 - 1 = 5 / 4 by norm_num,
        abs_of_nonneg (by norm_num : (0 : ℝ) ≤ 5 / 4)]
      norm_num)]
  simp only []
  rw [check_pAtt_neg]
  rw [evolve_pAtt]
  simp only []
  rw [show yAttCorr.dphi / yAttCorr.a = wAtt from rfl]
  rw [primordial_inflation_find_attractor_loop,
    if_pos (le_trans (by linarith) (le_abs_self (wAtt / new0 - 1)))]
  simp only []
  rw [check_pAtt_neg]
  rw [evolve_pAtt]
  simp only []
  rw [show yAttCorr.dphi / yAttCorr.a = wAtt from rfl]
  rw [primordial_inflation_find_attractor_loop,
    if_neg (by rw [hww]; norm_num)]
  · show (⟨1, 0 + dV_0 / V_0 / 16 / Real.pi + dV_0 / V_0 / 16 / Real.pi,
        _⟩ : BgY).phi < 0
    show 0 + dV_0 / V_0 / 16 / Real.pi + dV_0 / V_0 / 16 / Real.pi < 0
    linarith
  · linarith
  · show (⟨1, 0 + dV_0 / V_0 / 16 / Real.pi, _⟩ : BgY).phi < 0
    show 0 + dV_0 / V_0 / 16 / Real.pi < 0
    linarith
  · linarith


theorem find_attractor_pAtt_junk0 :
    primordial_inflation_find_attractor pAtt prAtt OAtt 2 3 0 (1 / 4) 0
      = .ok (Real.sqrt (8 * Real.pi / 3
          * (0.5 * wAtt * wAtt + 27 / (2 * Real.pi))), wAtt) := by
  have hpi0 : (0 : ℝ) < Real.pi := Real.pi_pos
  have hpin := Real.pi_ne_zero
  have hV0 : (primordial_inflation_potential pAtt 0).1
      = 27 / (2 * Real.pi) := by
    simp only [primordial_inflation_potential, pAtt]
    ring
  have hdV0 : (primordial_inflation_potential pAtt 0).2.1
      = -81 / (8 * Real.pi) := by
    simp only [primordial_inflation_potential, pAtt]
    ring
  have hs36 : Real.sqrt (8 * Real.pi / 3 * (27 / (2 * Real.pi))) = 6 := by
    rw [show 8 * Real.pi / 3 * (27 / (2 * Real.pi)) = 36 by field_simp; ring,
      show (36 : ℝ) = 6 ^ 2 by norm_num, Real.sqrt_sq (by norm_num)]
  have hterm : -(-81 / (8 * Real.pi)) / 3 / 6 = 9 / (16 * Real.pi) := by
    field_simp
    ring
  simp only [primordial_inflation_find_attractor, hV0, hdV0, hs36, hterm]
  rw [attractor_loop_pAtt (27 / (2 * Real.pi)) (-81 / (8 * Real.pi))
    (9 / (16 * Real.pi)) (by positivity)
    (div_neg_of_neg_of_pos (by norm_num) (by positivity)) (by positivity)
    (by
      rw [div_le_div_iff₀ (by positivity) (by norm_num)]
      nlinarith [Real.pi_gt_three])]
  rfl

theorem find_attractor_pAtt_junk1 :
    primordial_inflation_find_attractor pAtt prAtt OAtt 2 3 0 (1 / 4) 1
      = .ok (Real.sqrt (8 * Real.pi / 3
          * (0.5 * wAtt * wAtt + 27 / (8 * Real.pi))), wAtt) := by
  have hpi0 : (0 : ℝ) < Real.pi := Real.pi_pos
  have hpin := Real.pi_ne_zero
  have hV1 : (primordial_inflation_potential pAtt 1).1
      = 27 / (8 * Real.pi) := by
    simp only [primordial_inflation_potential, pAtt]
    field_simp
    ring
  have hdV1 : (primordial_inflation_potential pAtt 1).2.1
      = -81 / (8 * Real.pi) := by
    simp only [primordial_inflation_potential, pAtt]
    ring
  have hs9 : Real.sqrt (8 * Real.pi / 3 * (27 / (8 * Real.pi))) = 3 := by
    rw [show 8 * Real.pi / 3 * (27 / (8 * Real.pi)) = 9 by field_simp; ring,
      show (9 : ℝ) = 3 ^ 2 by norm_num, Real.sqrt_sq (by norm_num)]
  have hterm : -(-81 / (8 * Real.pi)) / 3 / 3 = 9 / (8 * Real.pi) := by
    field_simp
    ring
  simp only [primordial_inflation_find_attractor, hV1, hdV1, hs9, hterm]
  rw [attractor_loop_pAtt (27 / (8 * Real.pi)) (-81 / (8 * Real.pi))
    (9 / (8 * Real.pi)) (by positivity)
    (div_neg_of_neg_of_pos (by norm_num) (by positivity)) (by positivity)
    (by
      rw [div_le_div_iff₀ (by positivity) (by norm_num)]
      nlinarith [Real.pi_gt_three])]
  rfl

theorem spectrum_at_k_log_in_range (tbl : SpectrumTable) (index_mode : ℕ)
    (spline : ℝ → ℕ → ℕ → ℝ) (x : ℝ) (output0 : ℕ → ℕ → ℝ)
    (hlo : tbl.lnk 0 ≤ x) (hhi : x ≤ tbl.lnk (tbl.lnk_size - 1)) :
    primordial_spectrum_at_k tbl index_mode .logarithmic spline x output0
      = (.ok (), spline x) := by
  have hin : ¬(tbl.lnk (tbl.lnk_size - 1) < x ∨ x < tbl.lnk 0) := by
    push_neg
    exact ⟨hhi, hlo⟩
  simp [primordial_spectrum_at_k, lnk_of, hin]

/-! ## Claim theorems -/

/-- C1 (code bug): the post-loop linear extrapolation correction of
`primordial_inflation_evolve_background` divides by the
`d(dphi)/dtau` slot `dy[index_in_dphi]` instead of the field derivative
`dy[index_in_phi] = dphi`, so the corrected state does NOT land on
`phi_stop`.  Concrete run: potential `V = 10 - phi` (positive, strictly
negative slope at every visited field value), state
`(a, phi, dphi) = (1, 2, 0)`, requested `phi_stop = 1`; the stepping loop
exits immediately and the correction leaves the field at `2`, not `1`. -/
theorem claim_C1_extrapolation_misses_phi_stop :
    0 < (primordial_inflation_potential pLin 2).1 ∧
    (primordial_inflation_potential pLin 2).2.1 < 0 ∧
    (primordial_inflation_evolve_background pLin prOne Oid 1 ⟨1, 2, 0⟩ 1).map
        BgY.phi = .ok 2 ∧
    (2 : ℝ) ≠ 1 := by
  refine ⟨by norm_num [primordial_inflation_potential, pLin],
    by norm_num [primordial_inflation_potential, pLin], ?_, by norm_num⟩
  have hloop : ∀ (dtau epsilon tau : ℝ),
      primordial_inflation_evolve_background_loop pLin prOne Oid 1 1
        ⟨1, 2, 0⟩ dtau epsilon tau = .ok (⟨1, 2, 0⟩, tau) := by
    intro dtau epsilon tau
    rw [primordial_inflation_evolve_background_loop, if_neg (by norm_num)]
  simp only [primordial_inflation_evolve_background, hloop, Except.map,
    primordial_inflation_derivs_bg]
  norm_num

/-- C2 (code bug): the slow-roll check of the background stepping loop
evaluates `epsilon` at the momentum slot `y[index_in_dphi]`, not at the
current field value.  Concrete run with `V = 10 - phi`: starting at
`(a, phi, dphi) = (1, -1, 0)` toward `phi_stop = 0`, one integrator step
lands on `(1, 0, 9.9)`; the field values visited (`-1` and `0`) both have
`epsilon <= 1` (no crossing of the claim's condition), yet the code
raises the fatal "inflation disrupted" error because it computed
`epsilon` at the value `9.9` of the momentum slot. -/
theorem claim_C2_epsilon_evaluated_at_momentum :
    primordial_inflation_evolve_background pLin prOne OC2 2 ⟨1, -1, 0⟩ 0
      = .error .inflationDisrupted ∧
    primordial_inflation_get_epsilon pLin (-1) ≤ 1 ∧
    primordial_inflation_get_epsilon pLin 0 ≤ 1 := by
  have hpi3 : (3 : ℝ) < Real.pi := Real.pi_gt_three
  have hpi0 : (0 : ℝ) < Real.pi := Real.pi_pos
  have heps0 : primordial_inflation_get_epsilon pLin 0 ≤ 1 := by
    simp only [primordial_inflation_get_epsilon,
      primordial_inflation_potential, pLin]
    norm_num
    rw [div_div, div_mul_eq_mul_div, div_le_one (by positivity)]
    nlinarith
  have hepsm1 : primordial_inflation_get_epsilon pLin (-1) ≤ 1 := by
    simp only [primordial_inflation_get_epsilon,
      primordial_inflation_potential, pLin]
    norm_num
    rw [div_div, div_mul_eq_mul_div, div_le_one (by positivity)]
    nlinarith
  have heps99 : 1 < primordial_inflation_get_epsilon pLin (99 / 10) := by
    have hpi315 : Real.pi < 3.15 := Real.pi_lt_d2
    simp only [primordial_inflation_get_epsilon,
      primordial_inflation_potential, pLin]
    norm_num
    rw [div_div, div_mul_eq_mul_div, lt_div_iff₀ (by positivity)]
    nlinarith
  have hcheck : primordial_inflation_check_potential pLin (-1) = .ok () :=
    check_potential_ok (by norm_num [primordial_inflation_potential, pLin])
      (by norm_num [primordial_inflation_potential, pLin])
  have hstep : ∀ (dtau tau epsilon : ℝ), epsilon ≤ 1 →
      primordial_inflation_evolve_background_loop pLin prOne OC2 0 2
        ⟨1, -1, 0⟩ dtau epsilon tau = .error .inflationDisrupted := by
    intro dtau tau epsilon heps
    rw [primordial_inflation_evolve_background_loop, if_pos (by norm_num)]
    rw [hcheck]
    simp only [OC2]
    rw [if_pos ⟨heps99, heps⟩]
  refine ⟨?_, hepsm1, heps0⟩
  simp only [primordial_inflation_evolve_background]
  rw [hstep _ _ _ heps0]
  rfl

/-- C4: at the start of every per-wavenumber mode integration with `k > 0`,
both the curvature mode function `ksi` and the tensor mode function `ah`
are initialized to the Bunch-Davies normalization `1/sqrt(2k)` (real slot;
imaginary slot zero, so the squared modulus is `1/(2k)`), and each
derivative is initialized to `-k` times that mode-function value (in the
oscillatory, i.e. imaginary, slot; the real derivative slot being zero). -/
theorem claim_C4_bunch_davies_init (k : ℝ) (hk : 0 < k) (y : InflY) :
    (primordial_inflation_one_k_init k y).ksi_re = 1 / Real.sqrt (2 * k) ∧
    (primordial_inflation_one_k_init k y).ksi_im = 0 ∧
    (primordial_inflation_one_k_init k y).ah_re = 1 / Real.sqrt (2 * k) ∧
    (primordial_inflation_one_k_init k y).ah_im = 0 ∧
    (primordial_inflation_one_k_init k y).ksi_re ^ 2
        + (primordial_inflation_one_k_init k y).ksi_im ^ 2 = 1 / (2 * k) ∧
    (primordial_inflation_one_k_init k y).ah_re ^ 2
        + (primordial_inflation_one_k_init k y).ah_im ^ 2 = 1 / (2 * k) ∧
    (primordial_inflation_one_k_init k y).dksi_re = 0 ∧
    (primordial_inflation_one_k_init k y).dksi_im
        = -k * (primordial_inflation_one_k_init k y).ksi_re ∧
    (primordial_inflation_one_k_init k y).dah_re = 0 ∧
    (primordial_inflation_one_k_init k y).dah_im
        = -k * (primordial_inflation_one_k_init k y).ah_re := by
  have h2k : (0 : ℝ) ≤ 2 * k := by linarith
  have hsq : (1 / Real.sqrt (2 * k)) ^ 2 + (0 : ℝ) ^ 2 = 1 / (2 * k) := by
    rw [div_pow, one_pow, Real.sq_sqrt h2k]
    ring
  refine ⟨rfl, rfl, rfl, rfl, ?_, ?_, rfl, rfl, rfl, rfl⟩ <;>
    simpa [primordial_inflation_one_k_init] using hsq

/-- Witness for C4 at `k = 1/2`. -/
theorem claim_C4_bunch_davies_init_witness :
    (primordial_inflation_one_k_init (1 / 2) yMode).ksi_re ^ 2
        + (primordial_inflation_one_k_init (1 / 2) yMode).ksi_im ^ 2
      = 1 / (2 * (1 / 2)) ∧
    (primordial_inflation_one_k_init (1 / 2) yMode).dksi_im
      = -(1 / 2) * (primordial_inflation_one_k_init (1 / 2) yMode).ksi_re :=
  ⟨(claim_C4_bunch_davies_init (1 / 2) (by norm_num) yMode).2.2.2.2.1,
   (claim_C4_bunch_davies_init (1 / 2) (by norm_num) yMode).2.2.2.2.2.2.2.1⟩

/-- C6: the per-`k` spectrum loop succeeds exactly when every computed
`(curvature, tensor)` pair is strictly positive, and on success the stored
table consists of the logarithms of those (positive) values; a
non-positive value aborts the whole computation through the fatal channel
instead of being stored. -/
theorem claim_C6_positive_spectra (modeOut : ℝ → ℝ × ℝ) (ks : List ℝ) :
    ((∃ out, primordial_inflation_spectra_loop modeOut ks = .ok out) ↔
      ∀ k ∈ ks, 0 < (modeOut k).1 ∧ 0 < (modeOut k).2) ∧
    ∀ out, primordial_inflation_spectra_loop modeOut ks = .ok out →
      out = ks.map fun k => (Real.log (modeOut k).1, Real.log (modeOut k).2) := by
  induction ks with
  | nil =>
      refine ⟨⟨fun _ => by simp, fun _ => ⟨[], rfl⟩⟩, ?_⟩
      intro out hout
      simpa [primordial_inflation_spectra_loop] using hout.symm
  | cons k ks ih =>
      rcases le_or_lt (modeOut k).1 0 with hc | hc
      · constructor
        · constructor
          · rintro ⟨out, hout⟩
            rw [primordial_inflation_spectra_loop,
              spectra_store_err_left _ hc] at hout
            exact absurd hout (by simp)
          · intro hall
            exact absurd (hall k (by simp)).1 (not_lt.mpr hc)
        · intro out hout
          rw [primordial_inflation_spectra_loop,
            spectra_store_err_left _ hc] at hout
          exact absurd hout (by simp)
      · rcases le_or_lt (modeOut k).2 0 with ht | ht
        · constructor
          · constructor
            · rintro ⟨out, hout⟩
              rw [primordial_inflation_spectra_loop,
                spectra_store_err_right hc ht] at hout
              exact absurd hout (by simp)
            · intro hall
              exact absurd (hall k (by simp)).2 (not_lt.mpr ht)
          · intro out hout
            rw [primordial_inflation_spectra_loop,
              spectra_store_err_right hc ht] at hout
            exact absurd hout (by simp)
        · constructor
          · constructor
            · rintro ⟨out, hout⟩
              rw [primordial_inflation_spectra_loop,
                spectra_store_pos hc ht] at hout
              intro k' hk'
              rcases List.mem_cons.mp hk' with h | h
              · exact h ▸ ⟨hc, ht⟩
              · refine (ih.1.mp ?_ k' h)
                rcases hrec : primordial_inflation_spectra_loop modeOut ks with
                  e | vs
                · rw [hrec] at hout
                  exact absurd hout (by simp)
                · exact ⟨vs, rfl⟩

            · intro hall
              obtain ⟨vs, hvs⟩ := ih.1.mpr fun k' hk' =>
                hall k' (List.mem_cons_of_mem _ hk')
              exact ⟨(Real.log (modeOut k).1, Real.log (modeOut k).2) :: vs, by
                rw [primordial_inflation_spectra_loop,
                  spectra_store_pos (hall k (by simp)).1 (hall k (by simp)).2,
                  hvs]⟩
          · intro out hout
            rw [primordial_inflation_spectra_loop,
              spectra_store_pos hc ht] at hout
            rcases hrec : primordial_inflation_spectra_loop modeOut ks with
              e | vs
            · rw [hrec] at hout
              exact absurd hout (by simp)
            · rw [hrec] at hout
              have hvs := ih.2 vs hrec
              simp only [Except.ok.injEq] at hout
              rw [← hout, hvs, List.map_cons]

/-- Witness for C6: a one-point grid with unit spectra. -/
theorem claim_C6_positive_spectra_witness :
    ∃ out, primordial_inflation_spectra_loop (fun _ => (1, 1)) [1] = .ok out ∧
      out = [(Real.log 1, Real.log 1)] := by
  obtain ⟨out, hout⟩ :=
    (claim_C6_positive_spectra (fun _ => (1, 1)) [1]).1.mpr
      (by intro k hk; exact ⟨one_pos, one_pos⟩)
  exact ⟨out, hout, by
    simpa using (claim_C6_positive_spectra (fun _ => (1, 1)) [1]).2 out hout⟩

/-- C10: in linear mode, a non-positive input wavenumber makes
`primordial_spectrum_at_k` return the error status immediately, with the
caller-supplied output array unmodified; in logarithmic mode no such sign
restriction exists (that error is never produced). -/
theorem claim_C10_linear_rejects_nonpositive (tbl : SpectrumTable)
    (index_mode : ℕ) (spline : ℝ → ℕ → ℕ → ℝ) (output0 : ℕ → ℕ → ℝ) :
    (∀ input : ℝ, input ≤ 0 →
      primordial_spectrum_at_k tbl index_mode .linear spline input output0
        = (.error .kNonPositive, output0)) ∧
    ∀ input : ℝ,
      (primordial_spectrum_at_k tbl index_mode .logarithmic spline input
          output0).1 ≠ .error .kNonPositive := by
  constructor
  · intro input h
    rw [primordial_spectrum_at_k, if_pos ⟨rfl, h⟩]
  · intro input
    rw [primordial_spectrum_at_k, if_neg (by simp)]
    by_cases hr : tbl.lnk (tbl.lnk_size - 1) < lnk_of LinLog.logarithmic input ∨
        lnk_of LinLog.logarithmic input < tbl.lnk 0
    · by_cases hs : tbl.spec_type ≠ SpecType.analytic_Pk
      · rw [if_pos hr, if_pos hs]
        simp
      · rw [if_pos hr, if_neg hs]
        simp
    · rw [if_neg hr]
      simp

/-- Witness for C10 at `input = -1`. -/
theorem claim_C10_linear_rejects_nonpositive_witness :
    primordial_spectrum_at_k tblA 0 .linear spline37 (-1) zeroOut
      = (.error .kNonPositive, zeroOut) :=
  (claim_C10_linear_rejects_nonpositive tblA 0 spline37 zeroOut).1 (-1)
    (by norm_num)

/-- C7: the per-wavenumber mode-integration do-while loop returns a state
only when, at that state, the horizon-crossing ratio satisfies
`k/aH < ratio_max` AND the fractional change per e-fold satisfies
`|dlnPdN| <= tol_curvature`; whenever either condition fails at the
freshly computed state, the loop takes another integration step. -/
theorem claim_C7_one_k_termination (p : PotParams) (pr : Precision)
    (O : InflOracle) (k : ℝ) :
    (∀ (fuel : ℕ) (s s' : OneKLoopState),
      primordial_inflation_one_k_loop p pr O k fuel s = some s' →
      k / s'.aH < pr.ratio_max ∧ |s'.dlnPdN| ≤ pr.tol_curvature) ∧
    ∀ (fuel : ℕ) (s : OneKLoopState),
      (pr.ratio_max ≤ k / (primordial_inflation_one_k_body p pr O k s).aH ∨
        pr.tol_curvature
          < |(primordial_inflation_one_k_body p pr O k s).dlnPdN|) →
      primordial_inflation_one_k_loop p pr O k (fuel + 1) s
        = primordial_inflation_one_k_loop p pr O k fuel
            (primordial_inflation_one_k_body p pr O k s) := by
  constructor
  · intro fuel
    induction fuel with
    | zero =>
        intro s s' h
        rw [primordial_inflation_one_k_loop] at h
        exact Option.noConfusion h
    | succ n ih =>
        intro s s' h
        rw [primordial_inflation_one_k_loop] at h
        by_cases hc : pr.ratio_max
              ≤ k / (primordial_inflation_one_k_body p pr O k s).aH ∨
            pr.tol_curvature
              < |(primordial_inflation_one_k_body p pr O k s).dlnPdN|
        · rw [if_pos hc] at h
          exact ih _ _ h
        · rw [if_neg hc] at h
          push_neg at hc
          obtain rfl := Option.some.inj h
          exact ⟨hc.1, hc.2⟩
  · intro fuel s hc
    rw [primordial_inflation_one_k_loop, if_pos hc]

/-- Witness for C7: the traced concrete run stops with `k/aH = 1/2 < 10`
and `|dlnPdN| = 0 <= 1`. -/
theorem claim_C7_one_k_termination_witness :
    (1 : ℝ) / sMode1.aH < prMode.ratio_max ∧
      |sMode1.dlnPdN| ≤ prMode.tol_curvature :=
  (claim_C7_one_k_termination pMode prMode OMode 1).1 1 sMode0 sMode1
    one_k_loop_eval

/-- C5, counterexample to the claim as stated: the claim asserts the
potential check (`V > 0`, `dV < 0`) is invoked before each integration
step of background OR mode integration, with any violation fatal.  In the
mode-integration loop of `primordial_inflation_one_k` no such check
exists: here a step lands on (and the loop normally returns) a state whose
field value `0` violates the invariant (`V(0) <= 0` under `pMode`, as the
first conjunct shows the check would report), with no error raised. -/
theorem claim_C5_mode_step_skips_potential_check :
    primordial_inflation_check_potential pMode sMode1.y.phi
      = .error .potentialNonPositive ∧
    primordial_inflation_one_k_loop pMode prMode OMode 1 1 sMode0
      = some sMode1 := by
  refine ⟨?_, one_k_loop_eval⟩
  have hphi : sMode1.y.phi = 0 := rfl
  rw [hphi]
  exact check_pMode_zero

/-- C5, amended: `primordial_inflation_check_potential` fails exactly when
`V <= 0` or `dV >= 0`, and in the BACKGROUND stepping loop the check runs
on the current field value before the integrator is invoked: whenever an
iteration starts (entry condition holds) at a field value where the check
fails, the loop aborts with that error, for every integrator oracle.
(The mode-integration loop performs no such per-step check.) -/
theorem claim_C5_potential_check_amended (p : PotParams) (phi : ℝ) :
    ((∃ e, primordial_inflation_check_potential p phi = .error e) ↔
      ((primordial_inflation_potential p phi).1 ≤ 0 ∨
        0 ≤ (primordial_inflation_potential p phi).2.1)) ∧
    ∀ (pr : Precision) (O : BgOracle) (phi_stop dtau epsilon tau : ℝ)
      (fuel : ℕ) (y : BgY) (e : ErrKind), y.phi = phi →
      y.phi ≤ phi_stop - y.dphi * dtau →
      primordial_inflation_check_potential p phi = .error e →
      primordial_inflation_evolve_background_loop p pr O phi_stop (fuel + 1) y
        dtau epsilon tau = .error e := by
  constructor
  · constructor
    · rintro ⟨e, he⟩
      by_contra hcon
      push_neg at hcon
      rw [check_potential_ok hcon.1 hcon.2] at he
      exact Except.noConfusion he
    · intro h
      by_cases hV : (primordial_inflation_potential p phi).1 ≤ 0
      · exact ⟨.potentialNonPositive, by
          simp only [primordial_inflation_check_potential]
          rw [if_pos hV]⟩
      · rcases h with h | hdV
        · exact absurd h hV
        · exact ⟨.slopeNonNegative, by
            simp only [primordial_inflation_check_potential]
            rw [if_neg hV, if_pos hdV]⟩
  · intro pr O phi_stop dtau epsilon tau fuel y e hyphi hcond hcheck
    rw [primordial_inflation_evolve_background_loop, if_pos hcond, hyphi,
      hcheck]

/-- Witness for the amended C5: a background iteration from field value `0`
under `pMode` aborts with the potential error before stepping. -/
theorem claim_C5_potential_check_amended_witness :
    primordial_inflation_evolve_background_loop pMode prMode Oid 1 1
      ⟨1, 0, 0⟩ 0 0 0 = .error .potentialNonPositive :=
  (claim_C5_potential_check_amended pMode 0).2 prMode Oid 1 0 0 0 0 ⟨1, 0, 0⟩
    .potentialNonPositive rfl (by norm_num) check_pMode_zero

/-- C3 (code bug): `primordial_inflation_find_attractor` evaluates the
potential at the local variable `phi` BEFORE `phi = phi_0` is executed
(an uninitialized read, modelled by the `junkPhi` parameter); the
junk-derived `V_0` feeds both the iteration step and the returned
`H_0 = sqrt((8 pi/3)(dphidt_0^2/2 + V_0))`.  Two runs differing only in
that uninitialized value (0 vs 1), with the same potential, `phi_0 = 0`
and precision `1/4`, both converge to the same `dphidt_0` but return
Hubble rates differing by more than the convergence tolerance
(`H_1 > (1 + 1/4) H_2`), refuting idempotence/determinism. -/
theorem claim_C3_attractor_reads_uninitialized_phi :
    ∃ H1 d1 H2 d2 : ℝ,
      primordial_inflation_find_attractor pAtt prAtt OAtt 2 3 0 (1 / 4) 0
        = .ok (H1, d1) ∧
      primordial_inflation_find_attractor pAtt prAtt OAtt 2 3 0 (1 / 4) 1
        = .ok (H2, d2) ∧
      d1 = d2 ∧ 0 < H2 ∧ (1 + 1 / 4) * H2 < H1 := by
  have hpi0 : (0 : ℝ) < Real.pi := Real.pi_pos
  have hpi315 : Real.pi < 3.15 := Real.pi_lt_d2
  have hA2pos : (0 : ℝ) < 8 * Real.pi / 3
      * (0.5 * wAtt * wAtt + 27 / (8 * Real.pi)) := by
    have h27 : (0 : ℝ) < 27 / (8 * Real.pi) := by positivity
    have hwnn : (0 : ℝ) ≤ 0.5 * wAtt * wAtt :=
      mul_nonneg (mul_nonneg (by norm_num) wAtt_pos.le) wAtt_pos.le
    have : (0 : ℝ) < 0.5 * wAtt * wAtt + 27 / (8 * Real.pi) := by linarith
    exact mul_pos (by positivity) this
  refine ⟨_, wAtt, _, wAtt, find_attractor_pAtt_junk0,
    find_attractor_pAtt_junk1, rfl, Real.sqrt_pos.mpr hA2pos, ?_⟩
  have hw2 : wAtt * wAtt ≤ 4 := by nlinarith [wAtt_ub, wAtt_pos]
  have e1 : 8 * Real.pi / 3 * (0.5 * wAtt * wAtt + 27 / (2 * Real.pi))
      = 4 * Real.pi / 3 * (wAtt * wAtt) + 36 := by
    field_simp
    ring
  have e2 : 8 * Real.pi / 3 * (0.5 * wAtt * wAtt + 27 / (8 * Real.pi))
      = 4 * Real.pi / 3 * (wAtt * wAtt) + 9 := by
    field_simp
    ring
  have hlt : 25 / 16 * (8 * Real.pi / 3
        * (0.5 * wAtt * wAtt + 27 / (8 * Real.pi)))
      < 8 * Real.pi / 3 * (0.5 * wAtt * wAtt + 27 / (2 * Real.pi)) := by
    rw [e1, e2]
    have hprod : Real.pi * (wAtt * wAtt) ≤ 3.15 * 4 := by
      nlinarith [mul_nonneg wAtt_pos.le wAtt_pos.le]
    nlinarith
  have hfac : Real.sqrt (25 / 16 * (8 * Real.pi / 3
        * (0.5 * wAtt * wAtt + 27 / (8 * Real.pi))))
      = (1 + 1 / 4) * Real.sqrt (8 * Real.pi / 3
          * (0.5 * wAtt * wAtt + 27 / (8 * Real.pi))) := by
    rw [Real.sqrt_mul (by norm_num : (0 : ℝ) ≤ 25 / 16),
      show Real.sqrt (25 / 16) = 5 / 4 by
        rw [show (25 / 16 : ℝ) = (5 / 4) ^ 2 by norm_num,
          Real.sqrt_sq (by norm_num)]]
    norm_num
  rw [← hfac]
  exact Real.sqrt_lt_sqrt (mul_nonneg (by norm_num) hA2pos.le) hlt

/-- C8: a query whose `ln k` lies in the closed tabulated interval
(endpoints included) is answered without any out-of-range error, through
the spline interpolator; a query strictly outside is an error unless the
spectrum type is analytic, in which case (linear mode) every non-zero pair
entry is the closed form
`A exp((n-1) ln(k/k_pivot) + (1/2) alpha ln(k/k_pivot)^2)`. -/
theorem claim_C8_range_and_analytic_fallback (tbl : SpectrumTable)
    (index_mode : ℕ) (mode : LinLog) (spline : ℝ → ℕ → ℕ → ℝ) (input : ℝ)
    (output0 : ℕ → ℕ → ℝ) (hpos : mode = LinLog.linear → 0 < input) :
    (tbl.lnk 0 ≤ lnk_of mode input →
      lnk_of mode input ≤ tbl.lnk (tbl.lnk_size - 1) →
      (primordial_spectrum_at_k tbl index_mode mode spline input output0).1
        = .ok () ∧
      (mode = LinLog.logarithmic →
        (primordial_spectrum_at_k tbl index_mode mode spline input output0).2
          = spline (lnk_of mode input))) ∧
    (tbl.lnk (tbl.lnk_size - 1) < lnk_of mode input ∨
        lnk_of mode input < tbl.lnk 0 →
      (tbl.spec_type = SpecType.inflation_V →
        primordial_spectrum_at_k tbl index_mode mode spline input output0
          = (.error .outOfRange, output0)) ∧
      (tbl.spec_type = SpecType.analytic_Pk → mode = LinLog.linear →
        (primordial_spectrum_at_k tbl index_mode mode spline input output0).1
          = .ok () ∧
        ∀ i j : ℕ, i ≤ j → j < tbl.ic_size index_mode →
          tbl.is_non_zero index_mode i j = true →
          (primordial_spectrum_at_k tbl index_mode mode spline input
              output0).2 i j
            = tbl.amplitude index_mode i j
              * Real.exp ((tbl.tilt index_mode i j - 1)
                    * Real.log (input / tbl.k_pivot)
                  + 0.5 * tbl.running index_mode i j
                    * Real.log (input / tbl.k_pivot) ^ 2))) := by
  constructor
  · intro hlo hhi
    have hin : ¬(tbl.lnk (tbl.lnk_size - 1) < lnk_of mode input ∨
        lnk_of mode input < tbl.lnk 0) := by
      push_neg
      exact ⟨hhi, hlo⟩
    cases mode with
    | linear =>
        have hpos' : ¬input ≤ 0 := not_le.mpr (hpos rfl)
        refine ⟨?_, fun h => nomatch h⟩
        simp [primordial_spectrum_at_k, hpos', hin]
    | logarithmic =>
        refine ⟨?_, fun _ => ?_⟩ <;>
          simp [primordial_spectrum_at_k, hin]
  · intro hout
    constructor
    · intro hV
      have hs : tbl.spec_type ≠ SpecType.analytic_Pk := by
        rw [hV]
        exact fun h => nomatch h
      cases mode with
      | linear =>
          have hpos' : ¬input ≤ 0 := not_le.mpr (hpos rfl)
          simp [primordial_spectrum_at_k, hpos', hout, hs]
      | logarithmic =>
          simp [primordial_spectrum_at_k, hout, hs]
    · intro hA hm
      subst hm
      have hpos' : ¬input ≤ 0 := not_le.mpr (hpos rfl)
      have hexp : Real.exp (lnk_of LinLog.linear input) = input :=
        Real.exp_log (hpos rfl)
      refine ⟨?_, ?_⟩
      · simp [primordial_spectrum_at_k, hpos', hout, hA]
      · intro i j hij hj hnz
        simp [primordial_spectrum_at_k, hpos', hout, hA, hij, hj, hnz,
          primordial_analytic_spectrum, hexp]

/-- Witness for C8: an endpoint query on the analytic table, an
out-of-range query on the inflationary table, and an out-of-range linear
query on the analytic table hitting the closed form. -/
theorem claim_C8_range_and_analytic_fallback_witness :
    (primordial_spectrum_at_k tblA 0 .logarithmic spline37 0 zeroOut).1
      = .ok () ∧
    primordial_spectrum_at_k tblI 0 .logarithmic spline37 2 zeroOut
      = (.error .outOfRange, zeroOut) ∧
    (primordial_spectrum_at_k tblA 0 .linear spline37 (Real.exp 2) zeroOut).2
        0 0
      = tblA.amplitude 0 0 0
        * Real.exp ((tblA.tilt 0 0 0 - 1)
              * Real.log (Real.exp 2 / tblA.k_pivot)
            + 0.5 * tblA.running 0 0 0
              * Real.log (Real.exp 2 / tblA.k_pivot) ^ 2) := by
  refine ⟨?_, ?_, ?_⟩
  · exact ((claim_C8_range_and_analytic_fallback tblA 0 .logarithmic spline37
        0 zeroOut (fun h => nomatch h)).1
      (by norm_num [tblA, lnk_of]) (by norm_num [tblA, lnk_of])).1
  · exact ((claim_C8_range_and_analytic_fallback tblI 0 .logarithmic spline37
        2 zeroOut (fun h => nomatch h)).2
      (by norm_num [tblI, tblA, lnk_of])).1 rfl
  · exact ((claim_C8_range_and_analytic_fallback tblA 0 .linear spline37
        (Real.exp 2) zeroOut (fun _ => Real.exp_pos 2)).2
      (by simp [tblA, lnk_of, Real.log_exp])).2 rfl rfl
      |>.2 0 0 le_rfl (by norm_num [tblA]) rfl

/-- C9: the derived phenomenological numbers of a non-analytic spectrum are
the two-sided finite differences of the log-spectrum at
`ln k_pivot +- dlnk`: `A_s = exp(lnP_pivot)`,
`n_s = (lnP_plus - lnP_minus)/(2 dlnk) + 1`,
`alpha_s = (lnP_plus - 2 lnP_pivot + lnP_minus)/dlnk^2`, and for tensors
`r = exp(lnP_pivot_t)/A_s`, `n_t = (lnP_plus_t - lnP_minus_t)/(2 dlnk)`
(no `+1`), `alpha_t` the second difference. -/
theorem claim_C9_finite_difference_params (tbl : SpectrumTable)
    (spline : ℕ → ℝ → ℕ → ℕ → ℝ) (index_md_scalars index_md_tensors : ℕ)
    (k_per_decade : ℝ) (output0 : ℕ → ℕ → ℝ) (o0 op om t0 tp tm : ℕ → ℕ → ℝ)
    (h1 : primordial_spectrum_at_k tbl index_md_scalars .logarithmic
        (spline index_md_scalars) (Real.log tbl.k_pivot) output0
        = (.ok (), o0))
    (h2 : primordial_spectrum_at_k tbl index_md_scalars .logarithmic
        (spline index_md_scalars)
        (Real.log tbl.k_pivot + Real.log 10 / k_per_decade) output0
        = (.ok (), op))
    (h3 : primordial_spectrum_at_k tbl index_md_scalars .logarithmic
        (spline index_md_scalars)
        (Real.log tbl.k_pivot - Real.log 10 / k_per_decade) output0
        = (.ok (), om))
    (h4 : primordial_spectrum_at_k tbl index_md_tensors .logarithmic
        (spline index_md_tensors) (Real.log tbl.k_pivot) output0
        = (.ok (), t0))
    (h5 : primordial_spectrum_at_k tbl index_md_tensors .logarithmic
        (spline index_md_tensors)
        (Real.log tbl.k_pivot + Real.log 10 / k_per_decade) output0
        = (.ok (), tp))
    (h6 : primordial_spectrum_at_k tbl index_md_tensors .logarithmic
        (spline index_md_tensors)
        (Real.log tbl.k_pivot - Real.log 10 / k_per_decade) output0
        = (.ok (), tm)) :
    primordial_derive_spectral_params tbl spline index_md_scalars
        index_md_tensors k_per_decade output0
      = .ok
          { A_s := Real.exp (o0 0 0)
            n_s := (op 0 0 - om 0 0) / (2 * (Real.log 10 / k_per_decade)) + 1
            alpha_s := (op 0 0 - 2 * o0 0 0 + om 0 0)
                / (Real.log 10 / k_per_decade) ^ 2
            r := Real.exp (t0 0 0) / Real.exp (o0 0 0)
            n_t := (tp 0 0 - tm 0 0) / (2 * (Real.log 10 / k_per_decade))
            alpha_t := (tp 0 0 - 2 * t0 0 0 + tm 0 0)
                / (Real.log 10 / k_per_decade) ^ 2 } := by
  rw [primordial_derive_spectral_params, h1, h2, h3, h4, h5, h6]

/-- Witness for C9 on the wide non-analytic table with a constant spline. -/
theorem claim_C9_finite_difference_params_witness :
    primordial_derive_spectral_params tblW spline5 0 1 1 zeroOut
      = .ok
          { A_s := Real.exp 5
            n_s := (5 - 5) / (2 * (Real.log 10 / 1)) + 1
            alpha_s := (5 - 2 * 5 + 5) / (Real.log 10 / 1) ^ 2
            r := Real.exp 5 / Real.exp 5
            n_t := (5 - 5) / (2 * (Real.log 10 / 1))
            alpha_t := (5 - 2 * 5 + 5) / (Real.log 10 / 1) ^ 2 } := by
  have hlogten_lt : Real.log 10 < 9 := by
    have := Real.log_lt_sub_one_of_pos (x := 10) (by norm_num) (by norm_num)
    linarith
  have hlogten_nonneg : (0 : ℝ) ≤ Real.log 10 :=
    Real.log_nonneg (by norm_num)
  have e0 : tblW.lnk 0 = -100 := by norm_num [tblW, tblI, tblA]
  have e1 : tblW.lnk (tblW.lnk_size - 1) = 100 := by
    norm_num [tblW, tblI, tblA]
  have hkp : Real.log tblW.k_pivot = 0 := by
    have : tblW.k_pivot = 1 := rfl
    rw [this, Real.log_one]
  have hcall : ∀ index_mode : ℕ, ∀ x : ℝ, -100 ≤ x → x ≤ 100 →
      primordial_spectrum_at_k tblW index_mode .logarithmic
          (spline5 index_mode) x zeroOut = (.ok (), spline5 index_mode x) :=
    fun index_mode x hx1 hx2 =>
      spectrum_at_k_log_in_range tblW index_mode (spline5 index_mode) x zeroOut
        (by rw [e0]; exact hx1) (by rw [e1]; exact hx2)
  have h1 := hcall 0 (Real.log tblW.k_pivot) (by rw [hkp]; norm_num)
    (by rw [hkp]; norm_num)
  have h2 := hcall 0 (Real.log tblW.k_pivot + Real.log 10 / 1)
    (by rw [hkp]; linarith) (by rw [hkp]; linarith)
  have h3 := hcall 0 (Real.log tblW.k_pivot - Real.log 10 / 1)
    (by rw [hkp]; linarith) (by rw [hkp]; linarith)
  have h4 := hcall 1 (Real.log tblW.k_pivot) (by rw [hkp]; norm_num)
    (by rw [hkp]; norm_num)
  have h5 := hcall 1 (Real.log tblW.k_pivot + Real.log 10 / 1)
    (by rw [hkp]; linarith) (by rw [hkp]; linarith)
  have h6 := hcall 1 (Real.log tblW.k_pivot - Real.log 10 / 1)
    (by rw [hkp]; linarith) (by rw [hkp]; linarith)
  have hfin := claim_C9_finite_difference_params tblW spline5 0 1 1 zeroOut
    _ _ _ _ _ _ h1 h2 h3 h4 h5 h6
  rw [hfin]
  rfl

end




